import Mathlib

/-
  Verification of the xbps transaction planner / dependency resolver
  (src/lib/repository_finddeps.c) and the removal front-end
  (src/bin/xbps-remove/main.c), as a shallow embedding in Lean 4.

  Conventions:
  - C functions returning errno-style ints become Lean functions returning
    Int codes or Except Int.
  - Opaque plist dictionaries become concrete record structures.
  - Library helpers that are not part of the two source files (VersionOps,
    PkgDB lookups, repository pool) are modelled from the spec; each such
    definition carries a doc comment starting with "Modelled from the spec".
-/

set_option autoImplicit false

/-- Linux errno value ENOENT (2), used by the sources for "not found". -/
def eNOENT : Int := 2

/-- Linux errno value ENOMEM (12). -/
def eNOMEM : Int := 12

/-- Linux errno value EEXIST (17), used for "already exists / has revdeps". -/
def eEXIST : Int := 17

/-- Linux errno value EINVAL (22). -/
def eINVAL : Int := 22

/-- Linux errno value ENOTEMPTY (39), the non-empty-directory error. -/
def eNOTEMPTY : Int := 39

/-- Linux errno value ELOOP (40), used by find_repo_deps for the depth cap. -/
def eLOOP : Int := 40

/-- Package states from the pkgdb, as used by pass 1 and pass 4 of
find_repo_deps (XBPS_PKG_STATE_NOT_INSTALLED, UNPACKED, INSTALLED,
HALF_REMOVED). -/
inductive PkgState where
  | notInstalled
  | unpacked
  | installed
  | halfRemoved
deriving DecidableEq, Repr

/-- Result of matching a concrete pkgver against a dependency pattern
(xbps_pkgpattern_match returns 1, 0 or -1). -/
inductive MatchRes where
  | isMatch
  | noMatch
  | matchErr
deriving DecidableEq, Repr

/-- Modelled from the spec (VersionOps.cmp): the dpkg-style order of a single
character inside a version token; digits sort as components, letters by code,
a tilde before everything else, other punctuation after letters. -/
def charOrder (c : Char) : Int :=
  if c.isDigit then 0
  else if c.isAlpha then (c.toNat : Int)
  else if c = '~' then -1
  else (c.toNat : Int) + 256

/-- One token of a version string: a maximal run of digits read as a number,
or a single non-digit character. -/
inductive VTok where
  | num (n : Nat)
  | chr (c : Char)
deriving DecidableEq, Repr

/-- Tokenize a version string; the accumulator holds a digit run in progress. -/
def vtokensAux : List Char → Option Nat → List VTok
  | [], none => []
  | [], some n => [VTok.num n]
  | c :: cs, acc =>
    if c.isDigit then
      vtokensAux cs (some ((acc.getD 0) * 10 + (c.toNat - 48)))
    else
      (match acc with
       | some n => [VTok.num n]
       | none => []) ++ VTok.chr c :: vtokensAux cs none

/-- Tokenize a version string into numeric and character tokens. -/
def vtokens (s : List Char) : List VTok := vtokensAux s none

/-- Compare two optional version tokens; a missing token compares like the
dpkg end-of-string (order 0). -/
def vtokCmp : Option VTok → Option VTok → Ordering
  | none, none => Ordering.eq
  | some (VTok.num m), some (VTok.num n) => compare m n
  | some (VTok.chr c), some (VTok.chr d) => compare (charOrder c) (charOrder d)
  | some (VTok.num _), some (VTok.chr d) => compare 0 (charOrder d)
  | some (VTok.chr c), some (VTok.num _) => compare (charOrder c) 0
  | none, some (VTok.num n) => compare 0 n
  | some (VTok.num n), none => compare n 0
  | none, some (VTok.chr d) => compare 0 (charOrder d)
  | some (VTok.chr c), none => compare (charOrder c) 0

/-- Compare an exhausted left version against remaining right tokens. -/
def vtokNilCmp : List VTok → Ordering
  | [] => Ordering.eq
  | b :: bs =>
    match vtokCmp none (some b) with
    | Ordering.eq => vtokNilCmp bs
    | o => o

/-- Lexicographic comparison of token lists. -/
def vtokListCmp : List VTok → List VTok → Ordering
  | [], bs => vtokNilCmp bs
  | a :: as, [] =>
    match vtokCmp (some a) none with
    | Ordering.eq => vtokListCmp as []
    | o => o
  | a :: as, b :: bs =>
    match vtokCmp (some a) (some b) with
    | Ordering.eq => vtokListCmp as bs
    | o => o

/-- Modelled from the spec (VersionOps.cmp): xbps_cmpver compares two version
strings component-wise, numeric runs as numbers, other characters by the
dpkg-style order; returns -1, 0 or 1 for less, equal, greater. -/
def xbps_cmpver (a b : String) : Int :=
  match vtokListCmp (vtokens a.data) (vtokens b.data) with
  | Ordering.lt => -1
  | Ordering.eq => 0
  | Ordering.gt => 1

/-- A character that starts the version-pattern portion of a dependency
pattern (the strpbrk set of xbps_pkgpattern_name and friends). -/
def isPatternChar (c : Char) : Bool :=
  c = '>' || c = '<' || c = '*' || c = '?' || c = '['

/-- Modelled from the spec (VersionOps.name_of): xbps_pkgpattern_name returns
the name portion before the first pattern character, or nothing (NULL) when
the string carries no pattern character. -/
def xbps_pkgpattern_name (pat : String) : Option String :=
  if pat.data.any isPatternChar then
    some (String.mk (pat.data.takeWhile (fun c => !(isPatternChar c))))
  else none

/-- Modelled from the spec (VersionOps.version_of): xbps_pkgpattern_version
returns the portion of the pattern from the first pattern character on, or
nothing (NULL) when there is none. -/
def xbps_pkgpattern_version (pat : String) : Option String :=
  if pat.data.any isPatternChar then
    some (String.mk (pat.data.dropWhile (fun c => !(isPatternChar c))))
  else none

/-- Split a pkgver string "name-version" at its last dash; nothing when the
string carries no dash. -/
def splitLastDash (s : String) : Option (String × String) :=
  let rev := s.data.reverse
  let vrev := rev.takeWhile (fun c => c ≠ '-')
  if vrev.length = rev.length then none
  else some (String.mk (s.data.take (s.data.length - vrev.length - 1)),
             String.mk vrev.reverse)

/-- Relational operator of a dependency pattern. -/
inductive RelOp where
  | ltOp
  | leOp
  | gtOp
  | geOp
deriving DecidableEq, Repr

/-- Parse the operator and version out of a pattern-version portion such as
">=1.0". -/
def parseVerPart (v : String) : Option (RelOp × String) :=
  match v.data with
  | '>' :: '=' :: rest => some (RelOp.geOp, String.mk rest)
  | '<' :: '=' :: rest => some (RelOp.leOp, String.mk rest)
  | '>' :: rest => some (RelOp.gtOp, String.mk rest)
  | '<' :: rest => some (RelOp.ltOp, String.mk rest)
  | _ => none

/-- Modelled from the spec (VersionOps.match): xbps_pkgpattern_match yields a
match on exact pkgver equality, or, when the pattern carries a relational
operator, on a dewey comparison of the version against the pattern bound for
the same package name; malformed patterns are reported as a distinct kind. -/
def xbps_pkgpattern_match (pkgver pat : String) : MatchRes :=
  if pat = pkgver then MatchRes.isMatch
  else if pat.data.any (fun c => c = '>' || c = '<') then
    match xbps_pkgpattern_name pat, xbps_pkgpattern_version pat,
          splitLastDash pkgver with
    | some pnm, some pvp, some (nm, ver) =>
      match parseVerPart pvp with
      | none => MatchRes.matchErr
      | some (op, pver) =>
        if pnm ≠ nm then MatchRes.noMatch
        else
          let c := xbps_cmpver ver pver
          match op with
          | RelOp.geOp => if c ≥ 0 then MatchRes.isMatch else MatchRes.noMatch
          | RelOp.gtOp => if c > 0 then MatchRes.isMatch else MatchRes.noMatch
          | RelOp.leOp => if c ≤ 0 then MatchRes.isMatch else MatchRes.noMatch
          | RelOp.ltOp => if c < 0 then MatchRes.isMatch else MatchRes.noMatch
    | _, _, _ => MatchRes.matchErr
  else MatchRes.noMatch

/-- A package dictionary as used by find_repo_deps: either a repository
candidate or an installed record, with the keys the source reads (pkgname,
pkgver, provides, run_depends).  An absent run_depends key is none. -/
structure PkgRecord where
  pkgname : String
  pkgver : String
  provides : List String
  run_depends : Option (List String)
deriving DecidableEq, Repr

/-- An installed package: the record together with its pkgdb state. -/
structure InstRecord where
  pkgd : PkgRecord
  state : PkgState
deriving DecidableEq, Repr

/-- A row of the unsorted_deps array: the repository dictionary after
store_dependency stamped it with the transaction reason, the
automatic-install flag and the package state. -/
structure TransEntry where
  pkgd : PkgRecord
  transaction : Option String
  automaticInstall : Bool
  state : PkgState
deriving DecidableEq, Repr

/-- The transaction dictionary portions touched by find_repo_deps: the
unsorted_deps array and the missing_deps array. -/
structure TransState where
  unsorted : List TransEntry
  missing : List String
deriving DecidableEq, Repr

/-- The environment of a resolution run: the installed pkgdb and the two
repository-pool lookups (virtual first, then real), which the core treats
as external collaborators. -/
structure Env where
  installed : List InstRecord
  rpoolVirt : String → Option PkgRecord
  rpoolPkg : String → Option PkgRecord

/-- Modelled from the spec (virtual satisfaction): xbps_match_virtual_pkg_in_dict
checks whether any provides entry of the record matches the pattern. -/
def xbps_match_virtual_pkg_in_dict (r : PkgRecord) (pat : String) : Bool :=
  r.provides.any (fun pv => xbps_pkgpattern_match pv pat = MatchRes.isMatch)

/-- Modelled from the spec (PkgDB.find_installed): lookup of an installed
record by exact pkgname, or, with bypattern set, by matching its pkgver
against the given pattern. -/
def xbps_find_pkg_dict_installed (env : Env) (str : String) (bypattern : Bool) :
    Option InstRecord :=
  env.installed.find? (fun i =>
    if bypattern then xbps_pkgpattern_match i.pkgd.pkgver str = MatchRes.isMatch
    else i.pkgd.pkgname = str)

/-- Whether a provides entry (a pkgver-style string) carries the given
virtual-package name. -/
def providesName (pv str : String) : Bool :=
  match splitLastDash pv with
  | some (nm, _) => nm = str
  | none => pv = str

/-- Modelled from the spec (PkgDB.find_virtualpkg_installed): lookup of an
installed record by a virtual name among its provides entries, or, with
bypattern set, by matching a provides entry against the pattern. -/
def xbps_find_virtualpkg_dict_installed (env : Env) (str : String)
    (bypattern : Bool) : Option InstRecord :=
  env.installed.find? (fun i =>
    if bypattern then xbps_match_virtual_pkg_in_dict i.pkgd str
    else i.pkgd.provides.any (fun pv => providesName pv str))

/-- Modelled from the spec (pass 2): scan unsorted_deps for an entry whose
provides satisfy the pattern. -/
def find_virtualpkg_in_unsorted (l : List TransEntry) (pat : String) :
    Option TransEntry :=
  l.find? (fun e => xbps_match_virtual_pkg_in_dict e.pkgd pat)

/-- Modelled from the spec (pass 2): scan unsorted_deps for an entry whose
pkgver matches the pattern. -/
def find_pkg_in_unsorted_by_pattern (l : List TransEntry) (pat : String) :
    Option TransEntry :=
  l.find? (fun e => xbps_pkgpattern_match e.pkgd.pkgver pat = MatchRes.isMatch)

/-- Outcome of the scan loop inside add_missing_reqdep: a malformed pattern
aborts the scan without adding (the goto out path with rv still 0), a
duplicate or not-greater version yields EEXIST, a name hit with a lesser new
version records the index to replace, otherwise the pattern is new. -/
inductive AmrRes where
  | malformed
  | dup
  | update (idx : Nat)
  | notFound
deriving DecidableEq, Repr

/-- The iterator loop of add_missing_reqdep (repository_finddeps.c): walk the
missing array comparing pattern names; on a name hit compare the version
portions with strcmp and then xbps_cmpver. -/
def amrScan : List String → String → Nat → AmrRes
  | [], _, _ => AmrRes.notFound
  | curdep :: rest, reqpkg, idx =>
    match xbps_pkgpattern_version curdep, xbps_pkgpattern_version reqpkg with
    | some curver, some pkgver =>
      match xbps_pkgpattern_name curdep, xbps_pkgpattern_name reqpkg with
      | some curpkgnamedep, some pkgnamedep =>
        if pkgnamedep = curpkgnamedep then
          if curver = pkgver then AmrRes.dup
          else if xbps_cmpver curver pkgver ≤ 0 then AmrRes.dup
          else AmrRes.update idx
        else amrScan rest reqpkg (idx + 1)
      | _, _ => AmrRes.malformed
    | _, _ => AmrRes.malformed

/-- Shallow embedding of add_missing_reqdep (repository_finddeps.c): returns
the C return value and the updated missing_deps array.  On a name hit with a
not-greater current version the new pattern replaces the old one (removal at
the found index, append at the end); on EEXIST nothing changes; a malformed
entry leaves the array unchanged with rv 0. -/
def add_missing_reqdep (missing : List String) (reqpkg : String) :
    Int × List String :=
  match amrScan missing reqpkg 0 with
  | AmrRes.malformed => (0, missing)
  | AmrRes.dup => (eEXIST, missing)
  | AmrRes.update idx => (0, (missing.eraseIdx idx) ++ [reqpkg])
  | AmrRes.notFound => (0, missing ++ [reqpkg])

/-- The sequence of record_missing calls as the resolver performs them: fold
add_missing_reqdep over the patterns, ignoring the EEXIST result as the
caller does. -/
def record_missing_seq (pats : List String) : List String :=
  pats.foldl (fun acc p => (add_missing_reqdep acc p).2) []

/-- Pass 1 installed lookup of find_repo_deps: a real package by name, then a
virtual package by name. -/
def instLookup (env : Env) (pkgname : String) : Option InstRecord :=
  match xbps_find_pkg_dict_installed env pkgname false with
  | some d => some d
  | none => xbps_find_virtualpkg_dict_installed env pkgname false

/-- Pass 2 lookup of find_repo_deps: a virtual-providers match in
unsorted_deps first, then a pkgver-pattern match. -/
def unsortedLookup (l : List TransEntry) (pat : String) : Option TransEntry :=
  match find_virtualpkg_in_unsorted l pat with
  | some d => some d
  | none => find_pkg_in_unsorted_by_pattern l pat

/-- Pass 3 lookup of find_repo_deps: the repository pool, virtual match
first, then a real match. -/
def rpoolLookup (env : Env) (pat : String) : Option PkgRecord :=
  match env.rpoolVirt pat with
  | some c => some c
  | none => env.rpoolPkg pat

/-- Pass 4 of find_repo_deps: classify the repository candidate.  The source
looks the candidate's exact pkgver up in the installed set (real, then
virtual); no hit stores reason install keeping the pass 1 state, a hit in
state installed stores update, a hit in state unpacked stores install, and
any other state leaves the reason variable untouched. -/
def pass4_classify (env : Env) (reason : Option String) (pstate : PkgState)
    (curpkgd : PkgRecord) : Option String × PkgState :=
  let tmpd :=
    match xbps_find_pkg_dict_installed env curpkgd.pkgver true with
    | some d => some d
    | none => xbps_find_virtualpkg_dict_installed env curpkgd.pkgver true
  match tmpd with
  | none => (some "install", pstate)
  | some inst2 =>
    if inst2.state = PkgState.installed then (some "update", inst2.state)
    else if inst2.state = PkgState.unpacked then (some "install", inst2.state)
    else (reason, inst2.state)

/-- What one iteration of the find_repo_deps loop decides: continue with the
next pattern (carrying the C locals reason and state and the updated
transaction), recurse into the stored candidate's run_depends and then
continue, or fail with an errno. -/
inductive StepRes where
  | cont (r : Option String) (s : PkgState) (st : TransState)
  | recur (crd : List String) (r : Option String) (s : PkgState) (st : TransState)
  | fail (e : Int)
deriving Repr

/-- Pass 4 and store_dependency of find_repo_deps: classify the candidate,
stamp it (transaction reason, automatic-install true, state) and append it
to unsorted_deps; then recurse when it has run_depends. -/
def fdStepP4 (env : Env) (curpkgd : PkgRecord) (r : Option String)
    (s : PkgState) (st : TransState) : StepRes :=
  let rs := pass4_classify env r s curpkgd
  let entry : TransEntry :=
    { pkgd := curpkgd, transaction := rs.1, automaticInstall := true,
      state := rs.2 }
  let st2 : TransState := { st with unsorted := st.unsorted ++ [entry] }
  match curpkgd.run_depends with
  | none => StepRes.cont rs.1 rs.2 st2
  | some crd => StepRes.recur crd rs.1 rs.2 st2

/-- Pass 3 of find_repo_deps: ask the repository pool; on a miss record the
pattern in missing_deps (EEXIST from add_missing_reqdep is re-set to 0) and
continue. -/
def fdStepP3 (env : Env) (reqpkg : String) (r : Option String) (s : PkgState)
    (st : TransState) : StepRes :=
  match rpoolLookup env reqpkg with
  | none =>
    let res := add_missing_reqdep st.missing reqpkg
    if res.1 = 0 ∨ res.1 = eEXIST then
      StepRes.cont r s { st with missing := res.2 }
    else StepRes.fail res.1
  | some curpkgd => fdStepP4 env curpkgd r s st

/-- Pass 2 of find_repo_deps: a dependency already queued in unsorted_deps is
skipped. -/
def fdStepP2 (env : Env) (reqpkg : String) (r : Option String) (s : PkgState)
    (st : TransState) : StepRes :=
  match unsortedLookup st.unsorted reqpkg with
  | some _ => StepRes.cont r s st
  | none => fdStepP3 env reqpkg r s st

/-- One iteration of the find_repo_deps loop over a required pattern, pass 1
first: malformed pattern name fails with EINVAL; an installed (real or
virtual) record satisfying the pattern as a virtual package, or matching in
a state other than unpacked, is skipped; a match in state unpacked sets
reason configure and falls through; no match falls through keeping the
previous reason; not installed falls through with reason install. -/
def fdStep (env : Env) (reqpkg : String) (reason : Option String)
    (_pstate : PkgState) (st : TransState) : StepRes :=
  match xbps_pkgpattern_name reqpkg with
  | none => StepRes.fail eINVAL
  | some pkgname =>
    match instLookup env pkgname with
    | none => fdStepP2 env reqpkg (some "install") PkgState.notInstalled st
    | some inst =>
      if xbps_match_virtual_pkg_in_dict inst.pkgd reqpkg then
        StepRes.cont reason inst.state st
      else
        match xbps_pkgpattern_match inst.pkgd.pkgver reqpkg with
        | MatchRes.noMatch => fdStepP2 env reqpkg reason inst.state st
        | MatchRes.isMatch =>
          if inst.state = PkgState.unpacked then
            fdStepP2 env reqpkg (some "configure") inst.state st
          else StepRes.cont reason inst.state st
        | MatchRes.matchErr => StepRes.fail (-1)

/-- The while loop of find_repo_deps over the run_depends array; recurse is
the recursive find_repo_deps call at depth + 1 performed after a candidate
with run_depends was stored. -/
def fdList (env : Env)
    (recurse : List String → TransState → Except Int TransState) :
    List String → Option String → PkgState → TransState →
    Except Int TransState
  | [], _, _, st => Except.ok st
  | reqpkg :: rest, r0, s0, st =>
    match fdStep env reqpkg r0 s0 st with
    | StepRes.fail e => Except.error e
    | StepRes.cont r s st2 => fdList env recurse rest r s st2
    | StepRes.recur crd r s st2 =>
      match recurse crd st2 with
      | Except.error e => Except.error e
      | Except.ok st3 => fdList env recurse rest r s st3

/-- The maximal recursion depth of find_repo_deps. -/
def MAX_DEPTH : Nat := 512

/-- find_repo_deps with an explicit structural fuel: the fuel is kept equal
to 513 - depth, so the fuel-zero branch coincides with the depth cap and is
otherwise unreachable; every call first checks depth against MAX_DEPTH and
returns ELOOP, exactly as the source does on entry. -/
def fdRun : Nat → Env → Nat → List String → TransState →
    Except Int TransState
  | 0, _, _, _, _ => Except.error eLOOP
  | fuel + 1, env, depth, rdeps, st =>
    if MAX_DEPTH ≤ depth then Except.error eLOOP
    else
      fdList env (fun crd st2 => fdRun fuel env (depth + 1) crd st2)
        rdeps none PkgState.notInstalled st

/-- Shallow embedding of find_repo_deps (repository_finddeps.c): resolve the
given run_depends array at the given recursion depth against the
environment, threading the transaction state. -/
def find_repo_deps (env : Env) (depth : Nat) (rdeps : List String)
    (st : TransState) : Except Int TransState :=
  fdRun (513 - depth) env depth rdeps st

/-- Shallow embedding of xbps_repository_find_pkg_deps: nothing to do when
the root package has no run_depends array, otherwise run find_repo_deps at
depth 0. -/
def xbps_repository_find_pkg_deps (env : Env) (repo_pkgd : PkgRecord)
    (st : TransState) : Except Int TransState :=
  match repo_pkgd.run_depends with
  | none => Except.ok st
  | some rdeps => find_repo_deps env 0 rdeps st

/-- Whether a resolution run succeeded. -/
def exceptOk (e : Except Int TransState) : Bool :=
  match e with
  | Except.ok _ => true
  | Except.error _ => false

/-- Unary package name (and pkgver) of the i-th chain package: i copies of
the letter x.  The pkgver deliberately carries no dash, so it can never match
a dependency pattern. -/
def allX (i : Nat) : String := String.mk (List.replicate i 'x')

/-- Dependency pattern requiring the i-th chain package: its unary name
followed by a bare greater-than bound. -/
def chainPat (i : Nat) : String := String.mk (List.replicate i 'x' ++ ['>'])

/-- The i-th package of a chain of length n, depending on package i + 1; the
last one carries no run_depends array. -/
def chainPkg (n i : Nat) : PkgRecord :=
  { pkgname := allX i, pkgver := allX i, provides := [],
    run_depends := if i < n then some [chainPat (i + 1)] else none }

/-- Decode the index of a chain pattern from its unary spelling. -/
def chainIdx : List Char → Option Nat
  | ['>'] => some 0
  | 'x' :: cs => (chainIdx cs).map (fun k => k + 1)
  | _ => none

/-- Environment for the depth-cap scenario: nothing installed, and a
repository pool serving exactly the chain packages 1..n. -/
def chainEnv (n : Nat) : Env :=
  { installed := [],
    rpoolVirt := fun _ => none,
    rpoolPkg := fun p =>
      match chainIdx p.data with
      | some i => if 1 ≤ i ∧ i ≤ n then some (chainPkg n i) else none
      | none => none }

/-- Root package whose single dependency starts the chain. -/
def chainRoot : PkgRecord :=
  { pkgname := "root", pkgver := "root-1", provides := [],
    run_depends := some [chainPat 1] }

/-- The transaction entry stored for the i-th chain package. -/
def chainEntry (n i : Nat) : TransEntry :=
  { pkgd := chainPkg n i, transaction := some "install",
    automaticInstall := true, state := PkgState.notInstalled }

/-- An entry that can never satisfy a chain pattern: no provides, and a
pkgver consisting only of the letter x. -/
def cleanEntry (e : TransEntry) : Prop :=
  e.pkgd.provides = [] ∧ ∀ c ∈ e.pkgd.pkgver.data, c = 'x'

/-- A transaction state all of whose unsorted entries are clean. -/
def cleanSt (st : TransState) : Prop :=
  ∀ e ∈ st.unsorted, cleanEntry e

def exceptErr (e : Except Int TransState) : Option Int :=
  match e with
  | Except.ok _ => none
  | Except.error c => some c

/-- Projection of a resolution result used by the concrete scenarios: the
plan as (pkgname, pkgver, transaction) rows, or nothing on failure. -/
def resultPlan (e : Except Int TransState) :
    Option (List (String × String × Option String)) :=
  match e with
  | Except.ok s =>
    some (s.unsorted.map (fun en => (en.pkgd.pkgname, en.pkgd.pkgver, en.transaction)))
  | Except.error _ => none

/-- Installed record for the Unpacked scenario: foo-1.0 unpacked. -/
def fooUnpacked : InstRecord :=
  { pkgd := { pkgname := "foo", pkgver := "foo-1.0", provides := [],
              run_depends := none },
    state := PkgState.unpacked }

/-- Repository candidate foo-1.0 with one run dependency on bar. -/
def fooRepo5 : PkgRecord :=
  { pkgname := "foo", pkgver := "foo-1.0", provides := [],
    run_depends := some ["bar>=1.0"] }

/-- Repository candidate bar-1.0 without dependencies. -/
def barRepo5 : PkgRecord :=
  { pkgname := "bar", pkgver := "bar-1.0", provides := [],
    run_depends := none }

/-- Environment for the Unpacked scenario: foo-1.0 unpacked in the pkgdb,
and a repository carrying foo-1.0 (depending on bar) and bar-1.0. -/
def env5 : Env :=
  { installed := [fooUnpacked],
    rpoolVirt := fun _ => none,
    rpoolPkg := fun p =>
      if p = "foo>=1.0" then some fooRepo5
      else if p = "bar>=1.0" then some barRepo5
      else none }

/-- Installed record foo-1.0 in state installed. -/
def fooInst6 : InstRecord :=
  { pkgd := { pkgname := "foo", pkgver := "foo-1.0", provides := [],
              run_depends := none },
    state := PkgState.installed }

/-- Repository candidate foo-2.0 without dependencies. -/
def fooRepo6 : PkgRecord :=
  { pkgname := "foo", pkgver := "foo-2.0", provides := [],
    run_depends := none }

/-- Environment for the update-classification scenario: foo-1.0 installed,
repository carries foo-2.0. -/
def env6 : Env :=
  { installed := [fooInst6],
    rpoolVirt := fun _ => none,
    rpoolPkg := fun p => if p = "foo>=2.0" then some fooRepo6 else none }

/-- Repository candidate foo-1.0 without dependencies. -/
def fooRepo91 : PkgRecord :=
  { pkgname := "foo", pkgver := "foo-1.0", provides := [],
    run_depends := none }

/-- Environment for the duplicate-entry scenario: nothing installed,
repository carries foo-1.0 and foo-2.0 under their respective patterns. -/
def env9 : Env :=
  { installed := [],
    rpoolVirt := fun _ => none,
    rpoolPkg := fun p =>
      if p = "foo>=1.0" then some fooRepo91
      else if p = "foo>=2.0" then some fooRepo6
      else none }

/-- Repository candidate foo-1.0 without dependencies, for the amended
Unpacked scenario. -/
def fooRepo5w : PkgRecord :=
  { pkgname := "foo", pkgver := "foo-1.0", provides := [],
    run_depends := none }

/-- Environment for the amended Unpacked scenario: foo-1.0 unpacked, and a
repository carrying the same foo-1.0 without dependencies. -/
def env5w : Env :=
  { installed := [fooUnpacked],
    rpoolVirt := fun _ => none,
    rpoolPkg := fun p => if p = "foo>=1.0" then some fooRepo5w else none }

/-- Installed record foo-2.0 in state installed, matching the candidate
pkgver exactly. -/
def inst6w : InstRecord :=
  { pkgd := { pkgname := "foo", pkgver := "foo-2.0", provides := [],
              run_depends := none },
    state := PkgState.installed }

/-- Environment with foo-2.0 installed, for the amended pass 4 scenario. -/
def env6w : Env :=
  { installed := [inst6w],
    rpoolVirt := fun _ => none,
    rpoolPkg := fun _ => none }

/-- A transaction entry for foo-1.0 already queued in unsorted_deps. -/
def e91 : TransEntry :=
  { pkgd := fooRepo91, transaction := some "install",
    automaticInstall := true, state := PkgState.notInstalled }

/-- A transaction state with foo-1.0 already queued. -/
def st9w : TransState := { unsorted := [e91], missing := [] }

/-- Observable interactions of the xbps-remove front-end: the pkgdb lock
calls and the messages remove_pkg and main print.  removeCall records the
xbps_transaction_remove_pkg library call itself. -/
inductive Ev where
  | lock
  | unlock
  | removeCall (name : String)
  | warnHeader (name : String) (count : Nat)
  | reqbyLine (pkgver : String)
  | notInstalledMsg (name : String)
  | queueFailMsg (name : String) (code : Int)
  | execTrans
deriving DecidableEq, Repr

/-- Results of the libxbps calls the front-end makes, as an abstract
environment (the library itself is outside the two source files). -/
structure RmEnv where
  cleanCachedir : Int
  pkgdbLock : Int
  transactionAutoremove : Int
  transactionRemovePkg : String → Int
  revdepsOf : String → List String
  execTransaction : Int

/-- Option flags of xbps-remove after getopt parsing; recursive is passed
through to the library call and is folded into transactionRemovePkg. -/
structure RmOpts where
  drun : Bool
  ignoreRevdeps : Bool
  orphans : Bool
  cleanCache : Bool
  recursive : Bool
  names : List String

/-- The default options of a plain xbps-remove invocation on a list of
package names: no flags set. -/
def stdOpts (names : List String) : RmOpts :=
  { drun := false, ignoreRevdeps := false, orphans := false,
    cleanCache := false, recursive := false, names := names }

/-- Shallow embedding of remove_pkg (xbps-remove/main.c): queue one package
for removal.  EEXIST prints the WARNING header with the count of reverse
dependents followed by each dependent pkgver (print_package_line is
modelled from the spec: each pkgver on its own line) and returns EEXIST;
ENOENT prints the not-installed message and returns 0; any other non-zero
value prints the queue-failure message and is returned; success returns 0. -/
def remove_pkg (env : RmEnv) (pkgname : String) : Int × List Ev :=
  let rv := env.transactionRemovePkg pkgname
  if rv = eEXIST then
    (rv, Ev.removeCall pkgname ::
      Ev.warnHeader pkgname (env.revdepsOf pkgname).length ::
      (env.revdepsOf pkgname).map Ev.reqbyLine)
  else if rv = eNOENT then
    (0, [Ev.removeCall pkgname, Ev.notInstalledMsg pkgname])
  else if rv ≠ 0 then
    (rv, [Ev.removeCall pkgname, Ev.queueFailMsg pkgname rv])
  else (0, [Ev.removeCall pkgname])

/-- The for loop of main over the requested names: remove_pkg result 0
continues, a result other than EEXIST unlocks (unless dry-run) and exits
with that code, EEXIST sets reqby_force and continues.  On normal completion
the reqby_force flag, the last remove_pkg result and the trace are
returned. -/
def remove_loop (env : RmEnv) (drun : Bool) :
    List String → Bool → Int → List Ev →
    Except (Int × List Ev) (Bool × Int × List Ev)
  | [], reqbyForce, rv, tr => Except.ok (reqbyForce, rv, tr)
  | n :: rest, reqbyForce, _, tr =>
    let r := remove_pkg env n
    if r.1 = 0 then remove_loop env drun rest reqbyForce r.1 (tr ++ r.2)
    else if r.1 ≠ eEXIST then
      Except.error (r.1, tr ++ r.2 ++ (if drun then [] else [Ev.unlock]))
    else remove_loop env drun rest true r.1 (tr ++ r.2)

/-- The trace of a finished or aborted remove loop. -/
def loopTrace (x : Except (Int × List Ev) (Bool × Int × List Ev)) : List Ev :=
  match x with
  | Except.ok (_, _, t) => t
  | Except.error (_, t) => t

/-- Shallow embedding of main (xbps-remove/main.c) from the clean-cache step
on (after option parsing and xbps_init): returns the exit code and the trace
of lock calls and messages.  The pkgdb lock is taken only when not in
dry-run; a failing xbps_transaction_autoremove_pkgs unlocks unconditionally
and exits 1 (or 0 on ENOENT); after the name loop, a blocked removal
without force-revdeps and outside dry-run unlocks and exits EXIT_FAILURE;
otherwise the transaction is executed (exec_transaction is modelled from
the spec as the abstract execTransaction result) and the lock is released
unless in dry-run. -/
def main_run (env : RmEnv) (o : RmOpts) : Int × List Ev :=
  if o.cleanCache ∧ env.cleanCachedir ≠ 0 then (env.cleanCachedir, [])
  else
    let rv0 : Int := if o.cleanCache then env.cleanCachedir else 0
    if ¬ o.drun ∧ env.pkgdbLock ≠ 0 then (env.pkgdbLock, [])
    else
      let tr0 : List Ev := if o.drun then [] else [Ev.lock]
      if o.orphans ∧ env.transactionAutoremove ≠ 0 then
        if env.transactionAutoremove ≠ eNOENT then (1, tr0 ++ [Ev.unlock])
        else (0, tr0 ++ [Ev.unlock])
      else
        match remove_loop env o.drun o.names false rv0 tr0 with
        | Except.error res => res
        | Except.ok (reqbyForce, rvL, tr) =>
          if reqbyForce ∧ ¬ o.ignoreRevdeps ∧ ¬ o.drun then
            (1, tr ++ [Ev.unlock])
          else
            let doTrans := o.orphans ∨ o.names ≠ []
            let rvE := if doTrans then env.execTransaction else rvL
            let trE := if doTrans then tr ++ [Ev.execTrans] else tr
            (rvE, trE ++ (if o.drun then [] else [Ev.unlock]))

/-- The events remove_pkg emits for one name. -/
def evBlock (env : RmEnv) (n : String) : List Ev := (remove_pkg env n).2

/-- The callback states of interest to state_cb_rm. -/
inductive CbState where
  | remove
  | removeFile
  | removeFileObsolete
  | removeDone
  | removeFail
  | removeFileFail
  | removeFileHashFail
  | removeFileObsoleteFail
  | other
deriving DecidableEq, Repr

/-- Outputs of the state callback: plain messages, error messages and
syslog records. -/
inductive CbOut where
  | msg (s : String)
  | errMsg (s : String)
  | sysLog (s : String)
deriving DecidableEq, Repr

/-- One state-change event delivered to the callback: the state, the pkgver
argument, the description, the errno and the relevant handle flags. -/
structure CbData where
  state : CbState
  arg : String
  desc : String
  err : Int
  verbose : Bool
  disableSyslog : Bool
deriving Repr

/-- Shallow embedding of state_cb_rm (xbps-remove/main.c): notifications and
successes print messages, failures print error messages (and syslog unless
disabled); a per-file failure whose errno is ENOTEMPTY is ignored entirely.
The callback always returns 0, so the driver continues with the plan. -/
def state_cb_rm (d : CbData) : List CbOut × Int :=
  let slog := !d.disableSyslog
  match d.state with
  | CbState.remove => ([CbOut.msg d.arg], 0)
  | CbState.removeFile => (if d.verbose then [CbOut.msg d.desc] else [], 0)
  | CbState.removeFileObsolete =>
    (if d.verbose then [CbOut.msg d.desc] else [], 0)
  | CbState.removeDone =>
    ([CbOut.msg d.arg] ++ (if slog then [CbOut.sysLog d.arg] else []), 0)
  | CbState.removeFail =>
    ([CbOut.errMsg d.desc] ++ (if slog then [CbOut.sysLog d.desc] else []), 0)
  | CbState.removeFileFail =>
    if d.err = eNOTEMPTY then ([], 0)
    else ([CbOut.errMsg d.desc] ++ (if slog then [CbOut.sysLog d.desc] else []), 0)
  | CbState.removeFileHashFail =>
    if d.err = eNOTEMPTY then ([], 0)
    else ([CbOut.errMsg d.desc] ++ (if slog then [CbOut.sysLog d.desc] else []), 0)
  | CbState.removeFileObsoleteFail =>
    if d.err = eNOTEMPTY then ([], 0)
    else ([CbOut.errMsg d.desc] ++ (if slog then [CbOut.sysLog d.desc] else []), 0)
  | CbState.other => ([], 0)

/-- Environment for the removal scenarios: libA is blocked by two reverse
dependents, gone is not installed, every other name queues fine. -/
def wEnv : RmEnv :=
  { cleanCachedir := 0, pkgdbLock := 0, transactionAutoremove := 0,
    transactionRemovePkg := fun n =>
      if n = "libA" then eEXIST else if n = "gone" then eNOENT else 0,
    revdepsOf := fun n =>
      if n = "libA" then ["app-1.0_1", "tool-2.0_1"] else [],
    execTransaction := 0 }

/-- Environment for the dry-run orphans scenario: no orphans to remove
(autoremove yields ENOENT). -/
def env8 : RmEnv :=
  { cleanCachedir := 0, pkgdbLock := 0, transactionAutoremove := eNOENT,
    transactionRemovePkg := fun _ => 0, revdepsOf := fun _ => [],
    execTransaction := 0 }

/-- Options of the dry-run orphans scenario: -n -o with no names. -/
def opts8 : RmOpts :=
  { drun := true, ignoreRevdeps := false, orphans := true,
    cleanCache := false, recursive := false, names := [] }

/-- Dry-run options with requested names, for the amended dry-run claim. -/
def opts8b : RmOpts :=
  { drun := true, ignoreRevdeps := false, orphans := false,
    cleanCache := false, recursive := false, names := ["pkga", "libA"] }

/-- A per-file removal failure event with errno ENOTEMPTY. -/
def cbW : CbData :=
  { state := CbState.removeFileFail, arg := "foo-1.0",
    desc := "unlink failed", err := eNOTEMPTY, verbose := false,
    disableSyslog := false }

theorem chainPat_data (i : Nat) :
    (chainPat i).data = List.replicate i 'x' ++ ['>'] := rfl

theorem pat_any_gt (i : Nat) : '>' ∈ (chainPat i).data := by
  rw [chainPat_data]
  exact List.mem_append_right _ (List.mem_singleton_self _)

theorem takeWhile_not_pattern (i : Nat) :
    (List.replicate i 'x' ++ ['>']).takeWhile (fun c => !(isPatternChar c)) =
      List.replicate i 'x' := by
  induction i with
  | zero => decide
  | succ k ih =>
    simp [List.replicate_succ, List.takeWhile_cons, ih,
      show isPatternChar 'x' = false from by decide]

theorem any_pattern_char (i : Nat) :
    (List.replicate i 'x' ++ ['>']).any isPatternChar = true := by
  simp only [List.any_append, List.any_cons, List.any_nil]
  simp [show isPatternChar '>' = true from by decide]

theorem chainPat_name (i : Nat) :
    xbps_pkgpattern_name (chainPat i) = some (allX i) := by
  unfold xbps_pkgpattern_name
  rw [chainPat_data, if_pos (any_pattern_char i), takeWhile_not_pattern]
  rfl

theorem chainIdx_replicate (i : Nat) :
    chainIdx (List.replicate i 'x' ++ ['>']) = some i := by
  induction i with
  | zero => rfl
  | succ k ih => simp [List.replicate_succ, chainIdx, ih]

theorem instLookup_chain (n : Nat) (x : String) :
    instLookup (chainEnv n) x = none := rfl

theorem rpool_chain (n i : Nat) (h1 : 1 ≤ i) (h2 : i ≤ n) :
    rpoolLookup (chainEnv n) (chainPat i) = some (chainPkg n i) := by
  simp [rpoolLookup, chainEnv, chainPat_data, chainIdx_replicate, h1, h2]

theorem pass4_chain (n : Nat) (r : Option String) (s : PkgState) (c : PkgRecord) :
    pass4_classify (chainEnv n) r s c = (some "install", s) := rfl

theorem splitLastDash_clean (s : String) (hx : ∀ c ∈ s.data, c = 'x') :
    splitLastDash s = none := by
  unfold splitLastDash
  have h2 : ∀ c ∈ s.data.reverse, (!decide (c = '-')) = true := by
    intro c hc
    have := hx c (List.mem_reverse.mp hc)
    subst this
    decide
  simp only [ne_eq, decide_not]
  rw [List.takeWhile_eq_self_iff.mpr h2]
  simp

theorem match_clean_ne (pkgver pat : String)
    (hx : ∀ c ∈ pkgver.data, c = 'x') (hgt : '>' ∈ pat.data) :
    xbps_pkgpattern_match pkgver pat = MatchRes.matchErr := by
  have hne : ¬ (pat = pkgver) := by
    intro he
    have := hx '>' (he ▸ hgt)
    exact absurd this (by decide)
  have hany : pat.data.any (fun c => c = '>' || c = '<') = true := by
    simp only [List.any_eq_true]
    exact ⟨'>', hgt, by decide⟩
  unfold xbps_pkgpattern_match
  rw [if_neg hne, if_pos hany, splitLastDash_clean pkgver hx]
  cases xbps_pkgpattern_name pat <;> cases xbps_pkgpattern_version pat <;> rfl

theorem unsorted_clean_none (l : List TransEntry) (pat : String)
    (hc : ∀ e ∈ l, cleanEntry e) (hgt : '>' ∈ pat.data) :
    unsortedLookup l pat = none := by
  have h1 : find_virtualpkg_in_unsorted l pat = none := by
    unfold find_virtualpkg_in_unsorted
    rw [List.find?_eq_none]
    intro e he
    simp [xbps_match_virtual_pkg_in_dict, (hc e he).1]
  have h2 : find_pkg_in_unsorted_by_pattern l pat = none := by
    unfold find_pkg_in_unsorted_by_pattern
    rw [List.find?_eq_none]
    intro e he
    simp [match_clean_ne e.pkgd.pkgver pat (hc e he).2 hgt]
  simp [unsortedLookup, h1, h2]

theorem cleanEntry_chain (n i : Nat) : cleanEntry (chainEntry n i) := by
  constructor
  · rfl
  · intro c hc
    simp only [chainEntry, chainPkg, allX] at hc
    exact (List.mem_replicate.mp hc).2

theorem cleanSt_append (st : TransState) (e : TransEntry)
    (hc : cleanSt st) (he : cleanEntry e) :
    cleanSt { st with unsorted := st.unsorted ++ [e] } := by
  intro f hf
  rcases List.mem_append.mp hf with h | h
  · exact hc f h
  · rw [List.mem_singleton.mp h]
    exact he

theorem fdStep_chain_lt (n i : Nat) (st : TransState)
    (h1 : 1 ≤ i) (hlt : i < n) (hc : cleanSt st) :
    fdStep (chainEnv n) (chainPat i) none PkgState.notInstalled st =
      StepRes.recur [chainPat (i + 1)] (some "install") PkgState.notInstalled
        { st with unsorted := st.unsorted ++ [chainEntry n i] } := by
  simp only [fdStep, chainPat_name, instLookup_chain, fdStepP2,
    unsorted_clean_none st.unsorted (chainPat i) hc (pat_any_gt i),
    fdStepP3, rpool_chain n i h1 (Nat.le_of_lt hlt), fdStepP4, pass4_chain]
  simp [chainPkg, chainEntry, hlt]

theorem fdStep_chain_last (n : Nat) (st : TransState)
    (h1 : 1 ≤ n) (hc : cleanSt st) :
    fdStep (chainEnv n) (chainPat n) none PkgState.notInstalled st =
      StepRes.cont (some "install") PkgState.notInstalled
        { st with unsorted := st.unsorted ++ [chainEntry n n] } := by
  simp only [fdStep, chainPat_name, instLookup_chain, fdStepP2,
    unsorted_clean_none st.unsorted (chainPat n) hc (pat_any_gt n),
    fdStepP3, rpool_chain n n h1 (Nat.le_refl n), fdStepP4, pass4_chain]
  simp [chainPkg, chainEntry]

theorem chain_run_ok (n : Nat) (hn : n ≤ 512) :
    ∀ k i st, i + k = n → 1 ≤ i → cleanSt st →
      ∃ st2, fdRun (513 - (i - 1)) (chainEnv n) (i - 1) [chainPat i] st =
        Except.ok st2 := by
  intro k
  induction k with
  | zero =>
    intro i st hik h1 hc
    have hin : i = n := by omega
    have hf : 513 - (i - 1) = (513 - i) + 1 := by omega
    have hd : ¬ (MAX_DEPTH ≤ i - 1) := by
      simp only [MAX_DEPTH]; omega
    rw [hf]
    simp only [fdRun, if_neg hd]
    subst hin
    simp only [fdList, fdStep_chain_last i st (by omega) hc]
    exact ⟨_, rfl⟩
  | succ k ih =>
    intro i st hik h1 hc
    have hlt : i < n := by omega
    have hf : 513 - (i - 1) = (513 - i) + 1 := by omega
    have hd : ¬ (MAX_DEPTH ≤ i - 1) := by
      simp only [MAX_DEPTH]; omega
    have hi1 : (i - 1) + 1 = i := by omega
    have hd2 : (i + 1) - 1 = i := by omega
    have hc2 : cleanSt { st with unsorted := st.unsorted ++ [chainEntry n i] } :=
      cleanSt_append st (chainEntry n i) hc (cleanEntry_chain n i)
    obtain ⟨st3, h3⟩ := ih (i + 1)
      { st with unsorted := st.unsorted ++ [chainEntry n i] }
      (by omega) (by omega) hc2
    rw [hd2] at h3
    rw [hf]
    simp only [fdRun, if_neg hd]
    simp only [fdList, fdStep_chain_lt n i st h1 hlt hc, hi1, h3]
    exact ⟨st3, rfl⟩

theorem chain_run_loop :
    ∀ k i st, i + k = 512 → 1 ≤ i → cleanSt st →
      fdRun (513 - (i - 1)) (chainEnv 513) (i - 1) [chainPat i] st =
        Except.error eLOOP := by
  intro k
  induction k with
  | zero =>
    intro i st hik h1 hc
    have hi : i = 512 := by omega
    have hf : 513 - (i - 1) = (513 - i) + 1 := by omega
    have hd : ¬ (MAX_DEPTH ≤ i - 1) := by
      simp only [MAX_DEPTH]; omega
    have hi1 : (i - 1) + 1 = i := by omega
    have hf2 : (513 : Nat) - i = 0 + 1 := by omega
    have hd2 : MAX_DEPTH ≤ i := by
      simp only [MAX_DEPTH]; omega
    rw [hf]
    simp only [fdRun, if_neg hd]
    simp only [fdList, fdStep_chain_lt 513 i st h1 (by omega) hc, hi1, hf2]
    simp only [fdRun, if_pos hd2]
  | succ k ih =>
    intro i st hik h1 hc
    have hlt : i < 513 := by omega
    have hf : 513 - (i - 1) = (513 - i) + 1 := by omega
    have hd : ¬ (MAX_DEPTH ≤ i - 1) := by
      simp only [MAX_DEPTH]; omega
    have hi1 : (i - 1) + 1 = i := by omega
    have hd2 : (i + 1) - 1 = i := by omega
    have hc2 : cleanSt { st with unsorted := st.unsorted ++ [chainEntry 513 i] } :=
      cleanSt_append st (chainEntry 513 i) hc (cleanEntry_chain 513 i)
    have h3 := ih (i + 1)
      { st with unsorted := st.unsorted ++ [chainEntry 513 i] }
      (by omega) (by omega) hc2
    rw [hd2] at h3
    rw [hf]
    simp only [fdRun, if_neg hd]
    simp only [fdList, fdStep_chain_lt 513 i st h1 hlt hc, hi1, h3]

theorem cleanSt_empty : cleanSt { unsorted := [], missing := [] } := by
  intro e he
  exact absurd he (List.not_mem_nil e)

/-- C4: dependency resolution never recurses past depth 512: a fabricated
dependency chain of length 512 (whose last package has no run_depends array)
resolves successfully, while a chain of length 513 fails with ELOOP. -/
theorem C4_depth_cap :
    exceptOk (xbps_repository_find_pkg_deps (chainEnv 512) chainRoot
      { unsorted := [], missing := [] }) = true ∧
    xbps_repository_find_pkg_deps (chainEnv 513) chainRoot
      { unsorted := [], missing := [] } = Except.error eLOOP := by
  constructor
  · obtain ⟨st2, h⟩ := chain_run_ok 512 (by omega) 511 1
      { unsorted := [], missing := [] } (by omega) (by omega) cleanSt_empty
    have e1 : (1 : Nat) - 1 = 0 := rfl
    rw [e1] at h
    show exceptOk (find_repo_deps (chainEnv 512) 0 [chainPat 1]
      { unsorted := [], missing := [] }) = true
    unfold find_repo_deps
    rw [h]
    rfl
  · have h := chain_run_loop 511 1
      { unsorted := [], missing := [] } (by omega) (by omega) cleanSt_empty
    have e1 : (1 : Nat) - 1 = 0 := rfl
    rw [e1] at h
    show find_repo_deps (chainEnv 513) 0 [chainPat 1]
      { unsorted := [], missing := [] } = Except.error eLOOP
    unfold find_repo_deps
    rw [h]

/-- C5 counterexample: with foo-1.0 installed in state Unpacked and matching
the pattern, and the repository carrying foo-1.0 (which depends on bar),
resolving the single pattern produces an install entry for foo (not
configure) and recurses into its run-dependencies, adding bar as well; the
claimed single configure entry does not appear. -/
theorem C5_unpacked_counterexample :
    resultPlan (find_repo_deps env5 0 ["foo>=1.0"]
        { unsorted := [], missing := [] }) =
    some [("foo", "foo-1.0", some "install"),
          ("bar", "bar-1.0", some "install")] := by decide

/-- C6 counterexample: with foo-1.0 installed in state Installed and the
repository candidate foo-2.0 chosen in pass 4, the stored action is install,
not update: pass 4 looks the candidate up by its exact pkgver, which the
installed foo-1.0 does not match. -/
theorem C6_pass4_counterexample :
    resultPlan (find_repo_deps env6 0 ["foo>=2.0"]
        { unsorted := [], missing := [] }) =
    some [("foo", "foo-2.0", some "install")] := by decide

/-- C9 counterexample: resolving foo>=1.0 then foo>=2.0 (with foo-1.0 and
foo-2.0 in the pool and nothing installed) stores two unsorted_deps entries
for the same name foo and succeeds; no ConstraintConflict error is raised
and the at-most-one-entry-per-name property fails. -/
theorem C9_unique_counterexample :
    resultPlan (find_repo_deps env9 0 ["foo>=1.0", "foo>=2.0"]
        { unsorted := [], missing := [] }) =
    some [("foo", "foo-1.0", some "install"),
          ("foo", "foo-2.0", some "install")] := by decide

/-- C1: the code keeps the least version, not the greatest: recording
foo>=1.0 then foo>=2.0 then foo>=1.5 leaves missing_deps containing exactly
foo>=1.0, because the xbps_cmpver test in add_missing_reqdep drops any new
pattern whose version is greater than or equal to the current one and
replaces only with lesser ones, contradicting its own comment and the spec,
which expect foo>=2.0 to remain. -/
theorem C1_missing_deps_keeps_least :
    record_missing_seq ["foo>=1.0", "foo>=2.0", "foo>=1.5"] = ["foo>=1.0"] := by
  decide

theorem fdList_eq_cont (env : Env)
    (recurse : List String → TransState → Except Int TransState)
    (q : String) (rest : List String) (r0 : Option String) (s0 : PkgState)
    (st : TransState) (r : Option String) (s : PkgState) (st2 : TransState)
    (h : fdStep env q r0 s0 st = StepRes.cont r s st2) :
    fdList env recurse (q :: rest) r0 s0 st = fdList env recurse rest r s st2 := by
  simp only [fdList, h]

/-- C5 amended: when the pattern P names a package installed in state
Unpacked whose version matches P (and not as a virtual provider), the
resolver does not stop at pass 1: with no queued entry and a repository
candidate C whose exact pkgver is the unpacked record, exactly one entry for
that name is appended with action install (not configure), and when C has no
run_depends the loop simply continues; when C has run_depends the resolver
recurses into them, as the counterexample shows. -/
theorem C5_unpacked_amended (env : Env)
    (recurse : List String → TransState → Except Int TransState)
    (P nm : String) (rest : List String) (r0 : Option String) (s0 : PkgState)
    (st : TransState) (inst : InstRecord) (C : PkgRecord)
    (hn : xbps_pkgpattern_name P = some nm)
    (hi : instLookup env nm = some inst)
    (hv : xbps_match_virtual_pkg_in_dict inst.pkgd P = false)
    (hm : xbps_pkgpattern_match inst.pkgd.pkgver P = MatchRes.isMatch)
    (hs : inst.state = PkgState.unpacked)
    (hq : unsortedLookup st.unsorted P = none)
    (hr : rpoolLookup env P = some C)
    (hp4 : xbps_find_pkg_dict_installed env C.pkgver true = some inst)
    (hrd : C.run_depends = none) :
    fdList env recurse (P :: rest) r0 s0 st =
      fdList env recurse rest (some "install") PkgState.unpacked
        { st with unsorted := st.unsorted ++
            [{ pkgd := C, transaction := some "install",
               automaticInstall := true, state := PkgState.unpacked }] } := by
  apply fdList_eq_cont
  simp only [fdStep, hn, hi, hv, hs, hm, fdStepP2, hq, fdStepP3, hr,
    fdStepP4, pass4_classify, hp4, hrd]
  simp

/-- C5 amended witness at the concrete Unpacked environment. -/
theorem C5_unpacked_amended_witness :
    fdList env5w (fun _ s2 => Except.ok s2) ["foo>=1.0"] none
        PkgState.notInstalled { unsorted := [], missing := [] } =
      fdList env5w (fun _ s2 => Except.ok s2) [] (some "install")
        PkgState.unpacked
        { unsorted := [{ pkgd := fooRepo5w, transaction := some "install",
                         automaticInstall := true,
                         state := PkgState.unpacked }],
          missing := [] } :=
  C5_unpacked_amended env5w (fun _ s2 => Except.ok s2) "foo>=1.0" "foo" []
    none PkgState.notInstalled { unsorted := [], missing := [] }
    fooUnpacked fooRepo5w (by decide) (by decide) (by decide) (by decide)
    (by decide) (by decide) (by decide) (by decide) (by decide)

/-- C6 amended: pass 4 classifies by the candidate's exact pkgver: when no
installed record (real or virtual provider) matches it, the action is
install and the pass 1 state is kept; when the matching record is in state
Installed the action is update; when it is Unpacked the action is install. -/
theorem C6_pass4_amended (env : Env) (r : Option String) (s : PkgState)
    (C : PkgRecord) :
    (xbps_find_pkg_dict_installed env C.pkgver true = none →
      xbps_find_virtualpkg_dict_installed env C.pkgver true = none →
      pass4_classify env r s C = (some "install", s)) ∧
    (∀ inst2, xbps_find_pkg_dict_installed env C.pkgver true = some inst2 →
      ((inst2.state = PkgState.installed →
        pass4_classify env r s C = (some "update", PkgState.installed)) ∧
       (inst2.state = PkgState.unpacked →
        pass4_classify env r s C = (some "install", PkgState.unpacked)))) := by
  constructor
  · intro h1 h2
    simp only [pass4_classify, h1, h2]
  · intro inst2 hf
    constructor
    · intro hst
      simp only [pass4_classify, hf, hst]
      simp
    · intro hst
      simp only [pass4_classify, hf, hst]
      simp

/-- C6 amended witness: foo-2.0 installed in state Installed makes pass 4
classify the candidate foo-2.0 as update. -/
theorem C6_pass4_amended_witness :
    pass4_classify env6w none PkgState.notInstalled fooRepo6 =
      (some "update", PkgState.installed) :=
  ((C6_pass4_amended env6w none PkgState.notInstalled fooRepo6).2 inst6w
    (by decide)).1 (by decide)

/-- C9 amended: an entry already queued in unsorted_deps wins: when the
pattern P names a package that is not installed and pass 2 finds a queued
entry satisfying P, the iteration adds nothing, changes nothing and
continues with the next pattern; but when the queued entry does not satisfy
P the resolver adds a second entry for the same name from the pool and no
ConstraintConflict error exists, as the counterexample shows. -/
theorem C9_queued_wins_amended (env : Env)
    (recurse : List String → TransState → Except Int TransState)
    (P nm : String) (rest : List String) (r0 : Option String) (s0 : PkgState)
    (st : TransState) (q : TransEntry)
    (hn : xbps_pkgpattern_name P = some nm)
    (hi : instLookup env nm = none)
    (hq : unsortedLookup st.unsorted P = some q) :
    fdList env recurse (P :: rest) r0 s0 st =
      fdList env recurse rest (some "install") PkgState.notInstalled st := by
  apply fdList_eq_cont
  simp only [fdStep, hn, hi, fdStepP2, hq]

/-- C9 amended witness: with foo-1.0 queued and foo>=1.0 requested again,
the iteration leaves the transaction unchanged. -/
theorem C9_queued_wins_amended_witness :
    fdList env9 (fun _ s2 => Except.ok s2) ["foo>=1.0"] none
        PkgState.notInstalled st9w =
      fdList env9 (fun _ s2 => Except.ok s2) [] (some "install")
        PkgState.notInstalled st9w :=
  C9_queued_wins_amended env9 (fun _ s2 => Except.ok s2) "foo>=1.0" "foo"
    [] none PkgState.notInstalled st9w e91 (by decide) (by decide) (by decide)

theorem remove_pkg_zero (env : RmEnv) (n : String)
    (h : env.transactionRemovePkg n = 0) :
    remove_pkg env n = (0, [Ev.removeCall n]) := by
  simp [remove_pkg, h, eEXIST, eNOENT]

theorem remove_pkg_noent (env : RmEnv) (n : String)
    (h : env.transactionRemovePkg n = eNOENT) :
    remove_pkg env n = (0, [Ev.removeCall n, Ev.notInstalledMsg n]) := by
  simp [remove_pkg, h, eEXIST, eNOENT]

theorem remove_pkg_eexist (env : RmEnv) (n : String)
    (h : env.transactionRemovePkg n = eEXIST) :
    remove_pkg env n = (eEXIST, Ev.removeCall n ::
      Ev.warnHeader n (env.revdepsOf n).length ::
      (env.revdepsOf n).map Ev.reqbyLine) := by
  simp [remove_pkg, h]

theorem remove_pkg_err (env : RmEnv) (n : String) (c : Int)
    (h : env.transactionRemovePkg n = c) (h0 : c ≠ 0) (h17 : c ≠ eEXIST)
    (h2 : c ≠ eNOENT) :
    remove_pkg env n = (c, [Ev.removeCall n, Ev.queueFailMsg n c]) := by
  simp [remove_pkg, h, h0, h17, h2]

theorem remove_loop_cons_zero (env : RmEnv) (drun : Bool) (n : String)
    (rest : List String) (rb : Bool) (rv : Int) (tr : List Ev)
    (h : env.transactionRemovePkg n = 0) :
    remove_loop env drun (n :: rest) rb rv tr =
      remove_loop env drun rest rb 0 (tr ++ [Ev.removeCall n]) := by
  simp [remove_loop, remove_pkg_zero env n h]

theorem remove_loop_cons_noent (env : RmEnv) (drun : Bool) (n : String)
    (rest : List String) (rb : Bool) (rv : Int) (tr : List Ev)
    (h : env.transactionRemovePkg n = eNOENT) :
    remove_loop env drun (n :: rest) rb rv tr =
      remove_loop env drun rest rb 0
        (tr ++ [Ev.removeCall n, Ev.notInstalledMsg n]) := by
  simp [remove_loop, remove_pkg_noent env n h]

theorem remove_loop_cons_eexist (env : RmEnv) (drun : Bool) (n : String)
    (rest : List String) (rb : Bool) (rv : Int) (tr : List Ev)
    (h : env.transactionRemovePkg n = eEXIST) :
    remove_loop env drun (n :: rest) rb rv tr =
      remove_loop env drun rest true eEXIST
        (tr ++ (Ev.removeCall n ::
          Ev.warnHeader n (env.revdepsOf n).length ::
          (env.revdepsOf n).map Ev.reqbyLine)) := by
  simp [remove_loop, remove_pkg_eexist env n h, eEXIST]

theorem remove_loop_cons_err (env : RmEnv) (drun : Bool) (n : String)
    (rest : List String) (rb : Bool) (rv : Int) (tr : List Ev) (c : Int)
    (h : env.transactionRemovePkg n = c) (h0 : c ≠ 0) (h17 : c ≠ eEXIST)
    (h2 : c ≠ eNOENT) :
    remove_loop env drun (n :: rest) rb rv tr =
      Except.error (c, tr ++ [Ev.removeCall n, Ev.queueFailMsg n c] ++
        (if drun then [] else [Ev.unlock])) := by
  simp [remove_loop, remove_pkg_err env n c h h0 h17 h2, h0, h17]

theorem remove_loop_clean (env : RmEnv) (drun : Bool) (names : List String) :
    (∀ n ∈ names, env.transactionRemovePkg n = 0 ∨
      env.transactionRemovePkg n = eNOENT ∨
      env.transactionRemovePkg n = eEXIST) →
    ∀ rb rv tr, ∃ rv2,
      remove_loop env drun names rb rv tr =
        Except.ok
          (rb || names.any
             (fun n => decide (env.transactionRemovePkg n = eEXIST)),
           rv2, tr ++ names.flatMap (evBlock env)) := by
  induction names with
  | nil =>
    intro _ rb rv tr
    exact ⟨rv, by simp [remove_loop]⟩
  | cons n rest ih =>
    intro h rb rv tr
    have hrest := fun m hm => h m (List.mem_cons_of_mem n hm)
    rcases h n (List.mem_cons_self n rest) with h0 | h0 | h0
    · obtain ⟨rv2, h2⟩ := ih hrest rb 0 (tr ++ [Ev.removeCall n])
      refine ⟨rv2, ?_⟩
      rw [remove_loop_cons_zero env drun n rest rb rv tr h0, h2]
      have hb : evBlock env n = [Ev.removeCall n] := by
        simp [evBlock, remove_pkg_zero env n h0]
      simp [hb, h0, eEXIST]
    · obtain ⟨rv2, h2⟩ := ih hrest rb 0
        (tr ++ [Ev.removeCall n, Ev.notInstalledMsg n])
      refine ⟨rv2, ?_⟩
      rw [remove_loop_cons_noent env drun n rest rb rv tr h0, h2]
      have hb : evBlock env n = [Ev.removeCall n, Ev.notInstalledMsg n] := by
        simp [evBlock, remove_pkg_noent env n h0]
      simp [hb, h0, eEXIST, eNOENT]
    · obtain ⟨rv2, h2⟩ := ih hrest true eEXIST
        (tr ++ (Ev.removeCall n ::
          Ev.warnHeader n (env.revdepsOf n).length ::
          (env.revdepsOf n).map Ev.reqbyLine))
      refine ⟨rv2, ?_⟩
      rw [remove_loop_cons_eexist env drun n rest rb rv tr h0, h2]
      have hb : evBlock env n = Ev.removeCall n ::
          Ev.warnHeader n (env.revdepsOf n).length ::
          (env.revdepsOf n).map Ev.reqbyLine := by
        simp [evBlock, remove_pkg_eexist env n h0]
      simp [hb, h0, eEXIST]

theorem remove_loop_abort (env : RmEnv) (drun : Bool) (pre : List String) :
    ∀ bad post rb rv tr c,
      (∀ n ∈ pre, env.transactionRemovePkg n = 0 ∨
        env.transactionRemovePkg n = eNOENT) →
      env.transactionRemovePkg bad = c → c ≠ 0 → c ≠ eEXIST → c ≠ eNOENT →
      remove_loop env drun (pre ++ bad :: post) rb rv tr =
        Except.error (c, tr ++ pre.flatMap (evBlock env) ++
          [Ev.removeCall bad, Ev.queueFailMsg bad c] ++
          (if drun then [] else [Ev.unlock])) := by
  induction pre with
  | nil =>
    intro bad post rb rv tr c _ hb h0 h17 h2
    rw [List.nil_append,
      remove_loop_cons_err env drun bad post rb rv tr c hb h0 h17 h2]
    simp
  | cons m pre ih =>
    intro bad post rb rv tr c hpre hb h0 h17 h2
    have hprest := fun n hn => hpre n (List.mem_cons_of_mem m hn)
    rcases hpre m (List.mem_cons_self m pre) with h0m | h0m
    · rw [List.cons_append,
        remove_loop_cons_zero env drun m (pre ++ bad :: post) rb rv tr h0m,
        ih bad post rb 0 (tr ++ [Ev.removeCall m]) c hprest hb h0 h17 h2]
      have hm : evBlock env m = [Ev.removeCall m] := by
        simp [evBlock, remove_pkg_zero env m h0m]
      simp [hm]
    · rw [List.cons_append,
        remove_loop_cons_noent env drun m (pre ++ bad :: post) rb rv tr h0m,
        ih bad post rb 0 (tr ++ [Ev.removeCall m, Ev.notInstalledMsg m]) c
          hprest hb h0 h17 h2]
      have hm : evBlock env m = [Ev.removeCall m, Ev.notInstalledMsg m] := by
        simp [evBlock, remove_pkg_noent env m h0m]
      simp [hm]

theorem evBlock_head (env : RmEnv) (n : String) :
    ∃ t, evBlock env n = Ev.removeCall n :: t := by
  simp only [evBlock, remove_pkg]
  split
  · exact ⟨_, rfl⟩
  · split
    · exact ⟨_, rfl⟩
    · split
      · exact ⟨_, rfl⟩
      · exact ⟨_, rfl⟩

/-- C2 counterexample: a removal blocked by reverse dependencies makes the
front-end exit with EXIT_FAILURE (1), not with EEXIST (17) as claimed. -/
theorem C2_exit_code_counterexample :
    (main_run wEnv (stdOpts ["libA"])).1 = 1 ∧
    (main_run wEnv (stdOpts ["libA"])).1 ≠ eEXIST := by
  decide

/-- C2 amended: with the pkgdb lock available and no flags given, the
front-end exits EXIT_FAILURE (1) when at least one requested name is blocked
by reverse dependencies and the others queue fine or are not installed; it
exits 0 when every name queues fine or is not installed and the transaction
succeeds; and it exits with the OS error code returned by the first failing
xbps_transaction_remove_pkg call otherwise. -/
theorem C2_exit_codes_amended (env : RmEnv) (names : List String)
    (hlock : env.pkgdbLock = 0) (hne : names ≠ []) :
    ((∀ n ∈ names, env.transactionRemovePkg n = 0 ∨
        env.transactionRemovePkg n = eNOENT ∨
        env.transactionRemovePkg n = eEXIST) →
      (∃ n ∈ names, env.transactionRemovePkg n = eEXIST) →
      (main_run env (stdOpts names)).1 = 1) ∧
    ((∀ n ∈ names, env.transactionRemovePkg n = 0 ∨
        env.transactionRemovePkg n = eNOENT) →
      env.execTransaction = 0 →
      (main_run env (stdOpts names)).1 = 0) ∧
    (∀ pre bad post c, names = pre ++ bad :: post →
      (∀ n ∈ pre, env.transactionRemovePkg n = 0 ∨
        env.transactionRemovePkg n = eNOENT) →
      env.transactionRemovePkg bad = c → c ≠ 0 → c ≠ eEXIST → c ≠ eNOENT →
      (main_run env (stdOpts names)).1 = c) := by
  refine ⟨?_, ?_, ?_⟩
  · intro hall hsome
    obtain ⟨rv2, hL⟩ := remove_loop_clean env false names hall false 0 [Ev.lock]
    obtain ⟨n, hn, hc⟩ := hsome
    have hany : names.any
        (fun n => decide (env.transactionRemovePkg n = eEXIST)) = true :=
      List.any_eq_true.mpr ⟨n, hn, by simp [hc]⟩
    simp [main_run, stdOpts, hlock, hL, hany]
  · intro hall hexec
    have hall3 : ∀ n ∈ names, env.transactionRemovePkg n = 0 ∨
        env.transactionRemovePkg n = eNOENT ∨
        env.transactionRemovePkg n = eEXIST :=
      fun n hn => (hall n hn).elim Or.inl (fun h => Or.inr (Or.inl h))
    obtain ⟨rv2, hL⟩ := remove_loop_clean env false names hall3 false 0 [Ev.lock]
    have hany : names.any
        (fun n => decide (env.transactionRemovePkg n = eEXIST)) = false := by
      rw [List.any_eq_false]
      intro m hm
      rcases hall m hm with h | h <;> simp [h, eEXIST, eNOENT]
    simp [main_run, stdOpts, hlock, hL, hany, hne, hexec]
  · intro pre bad post c heq hpre hb h0 h17 h2
    have hL := remove_loop_abort env false pre bad post false 0 [Ev.lock] c
      hpre hb h0 h17 h2
    rw [heq]
    simp [main_run, stdOpts, hlock, hL]

/-- C2 amended witness at the concrete blocked environment. -/
theorem C2_exit_codes_amended_witness :
    ((∀ n ∈ ["pkga", "libA", "pkgb"], wEnv.transactionRemovePkg n = 0 ∨
        wEnv.transactionRemovePkg n = eNOENT ∨
        wEnv.transactionRemovePkg n = eEXIST) →
      (∃ n ∈ ["pkga", "libA", "pkgb"],
        wEnv.transactionRemovePkg n = eEXIST) →
      (main_run wEnv (stdOpts ["pkga", "libA", "pkgb"])).1 = 1) ∧
    ((∀ n ∈ ["pkga", "libA", "pkgb"], wEnv.transactionRemovePkg n = 0 ∨
        wEnv.transactionRemovePkg n = eNOENT) →
      wEnv.execTransaction = 0 →
      (main_run wEnv (stdOpts ["pkga", "libA", "pkgb"])).1 = 0) ∧
    (∀ pre bad post c, ["pkga", "libA", "pkgb"] = pre ++ bad :: post →
      (∀ n ∈ pre, wEnv.transactionRemovePkg n = 0 ∨
        wEnv.transactionRemovePkg n = eNOENT) →
      wEnv.transactionRemovePkg bad = c → c ≠ 0 → c ≠ eEXIST → c ≠ eNOENT →
      (main_run wEnv (stdOpts ["pkga", "libA", "pkgb"])).1 = c) :=
  C2_exit_codes_amended wEnv ["pkga", "libA", "pkgb"] rfl (by decide)

/-- C3: when one requested name is blocked by reverse dependencies, the
front-end prints the WARNING header carrying the count of reverse dependents
followed by each dependent pkgver on its own line, keeps calling
xbps_transaction_remove_pkg for every requested name (including those after
the blocked one), and finally exits non-zero. -/
theorem C3_warning_and_continue (env : RmEnv) (pre post : List String)
    (b : String) (hlock : env.pkgdbLock = 0)
    (hall : ∀ n ∈ pre ++ b :: post, env.transactionRemovePkg n = 0 ∨
      env.transactionRemovePkg n = eNOENT ∨
      env.transactionRemovePkg n = eEXIST)
    (hb : env.transactionRemovePkg b = eEXIST) :
    (main_run env (stdOpts (pre ++ b :: post))).1 ≠ 0 ∧
    (∃ t1 t2, (main_run env (stdOpts (pre ++ b :: post))).2 =
      t1 ++ (Ev.warnHeader b (env.revdepsOf b).length ::
        (env.revdepsOf b).map Ev.reqbyLine) ++ t2) ∧
    (∀ n ∈ pre ++ b :: post,
      Ev.removeCall n ∈ (main_run env (stdOpts (pre ++ b :: post))).2) := by
  obtain ⟨rv2, hL⟩ := remove_loop_clean env false (pre ++ b :: post) hall
    false 0 [Ev.lock]
  have hany : (pre ++ b :: post).any
      (fun n => decide (env.transactionRemovePkg n = eEXIST)) = true :=
    List.any_eq_true.mpr
      ⟨b, List.mem_append_right _ (List.mem_cons_self b post), by simp [hb]⟩
  have hmain : main_run env (stdOpts (pre ++ b :: post)) =
      (1, Ev.lock :: ((pre ++ b :: post).flatMap (evBlock env) ++
        [Ev.unlock])) := by
    simp [main_run, stdOpts, hlock, hL, hany]
  have hbB : evBlock env b = Ev.removeCall b ::
      Ev.warnHeader b (env.revdepsOf b).length ::
      (env.revdepsOf b).map Ev.reqbyLine := by
    simp [evBlock, remove_pkg_eexist env b hb]
  refine ⟨?_, ?_, ?_⟩
  · rw [hmain]
    exact one_ne_zero
  · rw [hmain]
    refine ⟨Ev.lock :: (pre.flatMap (evBlock env) ++ [Ev.removeCall b]),
      post.flatMap (evBlock env) ++ [Ev.unlock], ?_⟩
    simp [List.flatMap_append, hbB, List.append_assoc]
  · intro n hn
    rw [hmain]
    obtain ⟨t, ht⟩ := evBlock_head env n
    apply List.mem_cons_of_mem
    apply List.mem_append_left
    exact List.mem_flatMap.mpr
      ⟨n, hn, by rw [ht]; exact List.mem_cons_self _ _⟩

/-- C3 witness at the concrete blocked environment. -/
theorem C3_warning_and_continue_witness :
    (main_run wEnv (stdOpts (["pkga"] ++ "libA" :: ["pkgb"]))).1 ≠ 0 ∧
    (∃ t1 t2, (main_run wEnv (stdOpts (["pkga"] ++ "libA" :: ["pkgb"]))).2 =
      t1 ++ (Ev.warnHeader "libA" (wEnv.revdepsOf "libA").length ::
        (wEnv.revdepsOf "libA").map Ev.reqbyLine) ++ t2) ∧
    (∀ n ∈ ["pkga"] ++ "libA" :: ["pkgb"],
      Ev.removeCall n ∈
        (main_run wEnv (stdOpts (["pkga"] ++ "libA" :: ["pkgb"]))).2) :=
  C3_warning_and_continue wEnv ["pkga"] ["pkgb"] "libA" rfl (by decide)
    (by decide)

/-- C10: a requested name that is not installed (ENOENT from
xbps_transaction_remove_pkg) produces the not-installed message, counts as
success, does not stop the loop (every name is still passed to the library),
and the front-end exits 0 when everything else succeeds. -/
theorem C10_enoent_success (env : RmEnv) (names : List String) (n0 : String)
    (hlock : env.pkgdbLock = 0) (hmem : n0 ∈ names)
    (h0 : env.transactionRemovePkg n0 = eNOENT)
    (hall : ∀ n ∈ names, env.transactionRemovePkg n = 0 ∨
      env.transactionRemovePkg n = eNOENT)
    (hexec : env.execTransaction = 0) :
    (main_run env (stdOpts names)).1 = 0 ∧
    Ev.notInstalledMsg n0 ∈ (main_run env (stdOpts names)).2 ∧
    (∀ n ∈ names, Ev.removeCall n ∈ (main_run env (stdOpts names)).2) := by
  have hne : names ≠ [] := by
    intro he
    rw [he] at hmem
    exact List.not_mem_nil n0 hmem
  have hall3 : ∀ n ∈ names, env.transactionRemovePkg n = 0 ∨
      env.transactionRemovePkg n = eNOENT ∨
      env.transactionRemovePkg n = eEXIST :=
    fun n hn => (hall n hn).elim Or.inl (fun h => Or.inr (Or.inl h))
  obtain ⟨rv2, hL⟩ := remove_loop_clean env false names hall3 false 0 [Ev.lock]
  have hany : names.any
      (fun n => decide (env.transactionRemovePkg n = eEXIST)) = false := by
    rw [List.any_eq_false]
    intro m hm
    rcases hall m hm with h | h <;> simp [h, eEXIST, eNOENT]
  have hmain : main_run env (stdOpts names) =
      (0, Ev.lock :: (names.flatMap (evBlock env) ++
        [Ev.execTrans, Ev.unlock])) := by
    simp [main_run, stdOpts, hlock, hL, hany, hne, hexec]
  have hb0 : evBlock env n0 = [Ev.removeCall n0, Ev.notInstalledMsg n0] := by
    simp [evBlock, remove_pkg_noent env n0 h0]
  refine ⟨?_, ?_, ?_⟩
  · rw [hmain]
  · rw [hmain]
    apply List.mem_cons_of_mem
    apply List.mem_append_left
    exact List.mem_flatMap.mpr ⟨n0, hmem, by rw [hb0]; simp⟩
  · intro n hn
    rw [hmain]
    obtain ⟨t, ht⟩ := evBlock_head env n
    apply List.mem_cons_of_mem
    apply List.mem_append_left
    exact List.mem_flatMap.mpr
      ⟨n, hn, by rw [ht]; exact List.mem_cons_self _ _⟩

/-- C10 witness at the concrete environment with a not-installed name. -/
theorem C10_enoent_success_witness :
    (main_run wEnv (stdOpts ["pkga", "gone"])).1 = 0 ∧
    Ev.notInstalledMsg "gone" ∈ (main_run wEnv (stdOpts ["pkga", "gone"])).2 ∧
    (∀ n ∈ ["pkga", "gone"],
      Ev.removeCall n ∈ (main_run wEnv (stdOpts ["pkga", "gone"])).2) :=
  C10_enoent_success wEnv ["pkga", "gone"] "gone" rfl (by decide) (by decide)
    (by decide) rfl

theorem remove_pkg_lockfree (env : RmEnv) (n : String) :
    Ev.lock ∉ (remove_pkg env n).2 ∧ Ev.unlock ∉ (remove_pkg env n).2 := by
  refine ⟨?_, ?_⟩ <;>
  · simp only [remove_pkg]
    split
    · simp [List.mem_map]
    · split
      · simp
      · split
        · simp
        · simp

theorem remove_loop_drun_lockfree (env : RmEnv) (names : List String) :
    ∀ rb rv tr, Ev.lock ∉ tr → Ev.unlock ∉ tr →
      Ev.lock ∉ loopTrace (remove_loop env true names rb rv tr) ∧
      Ev.unlock ∉ loopTrace (remove_loop env true names rb rv tr) := by
  induction names with
  | nil =>
    intro rb rv tr h1 h2
    simpa [remove_loop, loopTrace] using ⟨h1, h2⟩
  | cons n rest ih =>
    intro rb rv tr h1 h2
    have hnp := remove_pkg_lockfree env n
    have ha1 : Ev.lock ∉ tr ++ (remove_pkg env n).2 := by
      rw [List.mem_append]
      rintro (h | h)
      · exact h1 h
      · exact hnp.1 h
    have ha2 : Ev.unlock ∉ tr ++ (remove_pkg env n).2 := by
      rw [List.mem_append]
      rintro (h | h)
      · exact h2 h
      · exact hnp.2 h
    by_cases hz : (remove_pkg env n).1 = 0
    · simp only [remove_loop, if_pos hz]
      exact ih rb (remove_pkg env n).1 (tr ++ (remove_pkg env n).2) ha1 ha2
    · by_cases he : (remove_pkg env n).1 = eEXIST
      · have hcond : ¬ ((remove_pkg env n).1 ≠ eEXIST) := by simpa using he
        simp only [remove_loop, if_neg hz, if_neg hcond]
        exact ih true (remove_pkg env n).1 (tr ++ (remove_pkg env n).2) ha1 ha2
      · simp only [remove_loop, if_neg hz, if_pos he]
        simp only [loopTrace, if_true]
        constructor
        · rw [List.append_nil]
          exact ha1
        · rw [List.append_nil]
          exact ha2

/-- C8 counterexample: with -n -o and no orphans to queue (autoremove
returns ENOENT), the front-end calls xbps_pkgdb_unlock even though the lock
was never acquired: the dry-run trace contains the unlock call, refuting the
claim that every unlock call is skipped under dry-run. -/
theorem C8_dryrun_counterexample :
    main_run env8 opts8 = (0, [Ev.unlock]) := by decide

/-- C8 amended: under dry-run the pkgdb lock is never acquired, and the
unlock calls are skipped on every exit path except the orphans-failure path:
when the orphans flag is off, the dry-run trace contains no unlock call
either. -/
theorem C8_dryrun_amended (env : RmEnv) (o : RmOpts) (hd : o.drun = true) :
    Ev.lock ∉ (main_run env o).2 ∧
    (o.orphans = false → Ev.unlock ∉ (main_run env o).2) := by
  by_cases h1 : o.cleanCache ∧ env.cleanCachedir ≠ 0
  · simp [main_run, h1]
  · by_cases h3 : o.orphans ∧ env.transactionAutoremove ≠ 0
    · constructor
      · simp only [main_run, if_neg h1, hd]
        simp only [not_true_eq_false, false_and, if_false]
        rw [if_pos h3]
        split <;> simp
      · intro ho
        rw [ho] at h3
        simp at h3
    · have hloop := remove_loop_drun_lockfree env o.names false
        (if o.cleanCache then env.cleanCachedir else 0) []
        (List.not_mem_nil _) (List.not_mem_nil _)
      rcases hres : remove_loop env true o.names false
          (if o.cleanCache then env.cleanCachedir else 0) [] with
        ⟨c, tr2⟩ | ⟨rb, rv2, tr2⟩
      · rw [hres] at hloop
        simp only [loopTrace] at hloop
        constructor
        · simp [main_run, h1, h3, hd, hres]
          exact hloop.1
        · intro _
          simp [main_run, h1, h3, hd, hres]
          exact hloop.2
      · rw [hres] at hloop
        simp only [loopTrace] at hloop
        constructor
        · simp [main_run, h1, h3, hd, hres]
          split
          · intro hmem
            rcases List.mem_append.mp hmem with h | h
            · exact hloop.1 h
            · simp at h
          · exact hloop.1
        · intro _
          simp [main_run, h1, h3, hd, hres]
          split
          · intro hmem
            rcases List.mem_append.mp hmem with h | h
            · exact hloop.2 h
            · simp at h
          · exact hloop.2

/-- C8 amended witness: a dry-run removal request acquires and releases no
lock. -/
theorem C8_dryrun_amended_witness :
    Ev.lock ∉ (main_run wEnv opts8b).2 ∧
    (opts8b.orphans = false → Ev.unlock ∉ (main_run wEnv opts8b).2) :=
  C8_dryrun_amended wEnv opts8b rfl

/-- C7: a per-file removal failure event (REMOVE_FILE_FAIL,
REMOVE_FILE_HASH_FAIL or REMOVE_FILE_OBSOLETE_FAIL) with errno ENOTEMPTY is
silently ignored by state_cb_rm, while any other errno makes it report the
error message; in both cases the callback returns 0 so the driver continues
with the remaining plan. -/
theorem C7_enotempty_tolerance (d : CbData)
    (h : d.state = CbState.removeFileFail ∨
         d.state = CbState.removeFileHashFail ∨
         d.state = CbState.removeFileObsoleteFail) :
    (d.err = eNOTEMPTY → state_cb_rm d = ([], 0)) ∧
    (d.err ≠ eNOTEMPTY →
      CbOut.errMsg d.desc ∈ (state_cb_rm d).1 ∧ (state_cb_rm d).2 = 0) := by
  rcases h with h | h | h <;>
  · constructor
    · intro he
      simp [state_cb_rm, h, he]
    · intro he
      constructor
      · simp [state_cb_rm, h, he]
      · simp [state_cb_rm, h, he]

/-- C7 witness: a concrete ENOTEMPTY per-file failure is ignored. -/
theorem C7_enotempty_tolerance_witness :
    (cbW.err = eNOTEMPTY → state_cb_rm cbW = ([], 0)) ∧
    (cbW.err ≠ eNOTEMPTY →
      CbOut.errMsg cbW.desc ∈ (state_cb_rm cbW).1 ∧ (state_cb_rm cbW).2 = 0) :=
  C7_enotempty_tolerance cbW (Or.inl rfl)
